import Mathlib

/-!
Verification of the authentication subsystem of a full-stack to-do-list
application (NextAuth credentials flow, tRPC registration router, e-mail
verification page, check-email route, tRPC timing middleware).

The embedding mirrors the TypeScript source:
  * `User` is the Prisma `User` record restricted to the fields the auth
    code touches (`password` is the nullable bcrypt hash, `emailVerified`
    the nullable timestamp, `verificationToken` the nullable one-time
    token).  A store is a list of records; Prisma's `findUnique` /
    `findFirst` become `List.find?`.
  * external primitives (bcrypt's `compare`/`hash`, the RNG) are passed in
    as parameters: `compare : String → String → Bool` stands for
    `bcrypt.compare`, `hash : String → String` for `bcrypt.hash(·,10)`,
    and the 32 random bytes drawn by `crypto.randomBytes(32)` are an
    explicit `List Nat` argument.
  * timestamps are `Nat` (milliseconds); `new Date()` becomes an explicit
    `now` argument.
-/

namespace TodoAuth

/-- Prisma `User` record, restricted to the fields the authentication code
reads or writes.  `password` holds the bcrypt hash (`null` for
federated-only accounts), `emailVerified` the verification timestamp
(`null` = unverified), `verificationToken` the outstanding one-time
verification token. -/
structure User where
  id : Nat
  email : String
  password : Option String
  name : Option String
  emailVerified : Option Nat
  verificationToken : Option String
deriving DecidableEq, Repr

/-- The credential store: the rows of the `User` table. -/
abbrev Store := List User

/-- `db.user.findUnique({ where: { email } })`. -/
def findByEmail (s : Store) (email : String) : Option User :=
  s.find? (fun u => u.email == email)

/-- `db.user.findFirst({ where: { verificationToken: token } })`. -/
def findByToken (s : Store) (token : String) : Option User :=
  s.find? (fun u => u.verificationToken == some token)

/-- `db.user.findUnique({ where: { id } })`. -/
def findById (s : Store) (uid : Nat) : Option User :=
  s.find? (fun u => u.id == uid)

/-- JavaScript truthiness of a nullable string (`!x`): `null` and the
empty string are falsy. -/
def strFalsy : Option String → Bool
  | none => true
  | some s => s.isEmpty

/-- Result of the `authorize` callback of the credentials provider: either
the authenticated user record or the message of the thrown `Error`. -/
inductive AuthResult where
  | ok (u : User)
  | err (msg : String)
deriving DecidableEq, Repr

/-- The `authorize` callback of the `CredentialsProvider` in the NextAuth
config.  `compare` is `bcrypt.compare`; `email?`/`password?` are the
submitted credentials (`none` models a missing or non-string field, which
the type guard rejects). -/
def authorize (compare : String → String → Bool) (s : Store)
    (emailCred passwordCred : Option String) : AuthResult :=
  match emailCred, passwordCred with
  | some email, some password =>
    match findByEmail s email with
    | none => .err "No user found with this email."
    | some user =>
      if strFalsy user.password then
        .err "No user found with this email."
      else if user.emailVerified.isNone then
        .err "Please verify your email before logging in."
      else if compare password (user.password.getD "") then
        .ok user
      else
        .err "Incorrect password."
  | _, _ => .err "Invalid credentials provided."

/-- The `signIn` callback of the NextAuth config: non-credentials
(federated) providers are allowed unconditionally; a credentials sign-in
is allowed only when the freshly looked-up record is e-mail verified. -/
def signInGate (s : Store) (provider : String) (uid : Nat) : Bool :=
  if provider != "credentials" then
    true
  else
    match findById s uid with
    | none => false
    | some existingUser => existingUser.emailVerified.isSome

/-- JavaScript `s.split('@')[0]` (the text before the first `@`; the whole
string when no `@` occurs), on the character list of the string. -/
def jsSplitHead (sep : Char) : List Char → List Char
  | [] => []
  | c :: cs => if c = sep then [] else c :: jsSplitHead sep cs

/-- One hexadecimal digit of Node's `Buffer.toString("hex")` (lowercase). -/
def hexDigit (n : Nat) : Char :=
  if n < 10 then Char.ofNat (48 + n) else Char.ofNat (87 + n)

/-- One byte rendered as two hexadecimal characters. -/
def byteToHex (b : Nat) : List Char :=
  [hexDigit (b / 16), hexDigit (b % 16)]

/-- `Buffer.toString("hex")`: the bytes rendered as a lowercase hex
string. -/
def hexEncode (bs : List Nat) : List Char :=
  bs.flatMap byteToHex

/-- The zod password rule of the register procedure:
`z.string().min(6).regex(/^(?=.*[A-Z])(?=.*\d)(?=.*[special])/)` —
at least 6 characters, one uppercase letter, one digit and one special
character from the literal character class of the source regex. -/
def passwordPolicy (p : String) : Bool :=
  decide (6 ≤ p.length)
    && p.data.any (fun c => 'A' ≤ c && c ≤ 'Z')
    && p.data.any (fun c => '0' ≤ c && c ≤ '9')
    && p.data.any (fun c => "!@#$%^&*()_+{}[]:;<>,.?~\\/-".data.contains c)

/-- Outcome of the tRPC `register` mutation: the value returned to the
client (or the thrown error message), the store after the call, and the
list of `(to, token)` verification e-mails handed to
`sendVerificationEmail`. -/
structure RegOutcome where
  result : Except String String
  store : Store
  sent : List (String × String)
deriving Repr

/-- The resolver body of `authRouter.register` (runs after zod
validation).  `hash` is `bcrypt.hash(·, 10)`, `bytes` the 32 random bytes
of `crypto.randomBytes(32)`, `freshId` the id Prisma generates for the
new row, `sent` the e-mails dispatched so far. -/
def registerResolver (hash : String → String) (bytes : List Nat)
    (freshId : Nat) (s : Store) (sent : List (String × String))
    (email password : String) : RegOutcome :=
  match findByEmail s email with
  | some _ => { result := .error "Email already in use", store := s, sent := sent }
  | none =>
    let hashedPassword := hash password
    let verificationToken := String.mk (hexEncode bytes)
    let newUser : User :=
      { id := freshId, email := email, password := some hashedPassword,
        name := some (String.mk (jsSplitHead '@' email.data)),
        emailVerified := none, verificationToken := some verificationToken }
    { result := .ok "Registration successful! Please check your email to verify your account.",
      store := s ++ [newUser],
      sent := sent ++ [(email, verificationToken)] }

/-- The full `register` procedure: zod input validation (e-mail format
check `emailOk` — zod's `.email()` regex, treated as an external
primitive — and the password policy) followed by the resolver. -/
def registerProc (emailOk : String → Bool) (hash : String → String)
    (bytes : List Nat) (freshId : Nat) (s : Store)
    (sent : List (String × String)) (email password : String) : RegOutcome :=
  if emailOk email && passwordPolicy password then
    registerResolver hash bytes freshId s sent email password
  else
    { result := .error "ValidationError", store := s, sent := sent }

/-- Outcome of the `/verify-email/[token]` server component. -/
inductive VerifyResult where
  | invalidLink
  | invalidOrExpired
  | success
deriving DecidableEq, Repr

/-- `db.user.update({ where: { id }, data: { emailVerified: now,
verificationToken: null } })`: the single update that consumes the
token. -/
def consumeUpdate (now uid : Nat) (s : Store) : Store :=
  s.map (fun v =>
    if v.id == uid then
      { v with emailVerified := some now, verificationToken := none }
    else v)

/-- The `VerifyEmailPage` server component: guard the empty token, look
the token up with `findFirst`, and on a match burn it with a single
`update` keyed by the record's id. -/
def verifyEmail (now : Nat) (s : Store) (token : String) :
    VerifyResult × Store :=
  if token.isEmpty then (.invalidLink, s)
  else
    match findByToken s token with
    | none => (.invalidOrExpired, s)
    | some user => (.success, consumeUpdate now user.id s)

/-- The request body reaching the `check-email` POST handler: not JSON at
all (`req.json()` throws), JSON that fails the zod `bodySchema`, or a
body with a schema-valid `email` field. -/
inductive CheckBody where
  | notJson
  | badSchema
  | withEmail (email : String)
deriving DecidableEq, Repr

/-- The JSON payload of the `check-email` response together with its HTTP
status. -/
structure CheckResponse where
  status : Nat
  exists_ : Bool
  emailVerified : Bool
deriving DecidableEq, Repr

/-- The `POST /api/auth/check-email` handler: a non-JSON body throws and
is caught as a 500; a schema-invalid body is answered 200 with both flags
false; otherwise `findUnique` by e-mail and report `Boolean(user)` and
`Boolean(user?.emailVerified)` with status 200. -/
def checkEmailPOST (s : Store) : CheckBody → CheckResponse
  | .notJson => { status := 500, exists_ := false, emailVerified := false }
  | .badSchema => { status := 200, exists_ := false, emailVerified := false }
  | .withEmail email =>
    match findByEmail s email with
    | none => { status := 200, exists_ := false, emailVerified := false }
    | some user =>
      { status := 200, exists_ := true, emailVerified := user.emailVerified.isSome }

/-- What the timing middleware produced: the artificial delay it awaited
(if any) and the value handed back up the chain. -/
structure TimingOutcome (E A : Type) where
  delayed : Option Nat
  result : Except E A

/-- The tRPC `timingMiddleware`: when `t._config.isDev` it awaits an
artificial delay of `Math.floor(Math.random() * 400) + 100` milliseconds
(`rand` is the raw random draw, reduced mod 400 as the floor of
`Math.random() * 400` is), then awaits `next()` and returns its result —
a downstream error (`Except.error`) propagates — without alteration. -/
def timingMiddleware {E A : Type} (isDev : Bool) (rand : Nat)
    (next : Except E A) : TimingOutcome E A :=
  { delayed := if isDev then some (rand % 400 + 100) else none,
    result := next }

/-- One client request to `/verify-email/[token]` in flight: `found`
records the result of its `findFirst` once the read step has run,
`result` the page outcome once it has finished. -/
structure VerifyReq where
  found : Option (Option User)
  result : Option VerifyResult
deriving DecidableEq, Repr

/-- A request that has not started yet. -/
def VerifyReq.fresh : VerifyReq := { found := none, result := none }

/-- One atomic step of a `/verify-email/[token]` request against the
shared store: first the guard + `findFirst` read, then (when the read
matched) the `update` write.  Each database call is atomic; the pair is
not. -/
def verifyStep (now : Nat) (token : String) (s : Store) (r : VerifyReq) :
    Store × VerifyReq :=
  match r.found, r.result with
  | none, none =>
    if token.isEmpty then (s, { r with result := some .invalidLink })
    else (s, { r with found := some (findByToken s token) })
  | some fr, none =>
    match fr with
    | none => (s, { r with result := some .invalidOrExpired })
    | some user => (consumeUpdate now user.id s, { r with result := some .success })
  | _, some _ => (s, r)

/-- Run two racing `/verify-email` requests for the same `token` under a
schedule: `true` steps request 1 (which stamps `now₁`), `false` steps
request 2 (stamping `now₂`). -/
def runSched (now₁ now₂ : Nat) (token : String) :
    List Bool → Store → VerifyReq → VerifyReq → Store × VerifyReq × VerifyReq
  | [], s, r₁, r₂ => (s, r₁, r₂)
  | b :: rest, s, r₁, r₂ =>
    if b then
      let (s', r₁') := verifyStep now₁ token s r₁
      runSched now₁ now₂ token rest s' r₁' r₂
    else
      let (s', r₂') := verifyStep now₂ token s r₂
      runSched now₁ now₂ token rest s' r₁ r₂'

/-- An operation of the register/verify state machine, with all external
inputs (hash function, random bytes, generated id, timestamp) carried on
the operation. -/
inductive Op where
  | reg (hash : String → String) (bytes : List Nat) (freshId : Nat)
      (email password : String)
  | ver (now : Nat) (token : String)

/-- Apply one operation to the store. -/
def stepOp (s : Store) : Op → Store
  | .reg hash bytes freshId email password =>
    (registerResolver hash bytes freshId s [] email password).store
  | .ver now token => (verifyEmail now s token).2

/-- The store reached from the empty store by a sequence of register and
verify operations. -/
def reachable (ops : List Op) : Store :=
  ops.foldl stepOp []

/-- The §3 data-model invariant: an outstanding verification token exists
only on an unverified record. -/
def TokenInv (s : Store) : Prop :=
  ∀ u ∈ s, u.verificationToken ≠ none → u.emailVerified = none

/-- The package of holders of a still-valid token `t` in store `s`. -/
def countHolders (s : Store) (t : String) : Nat :=
  (s.filter (fun u => u.verificationToken == some t)).length

end TodoAuth

namespace TodoAuth

/-- `jsSplitHead` (the embedding of JavaScript `split(sep)[0]`) returns
exactly the characters before the first separator. -/
lemma jsSplitHead_eq_takeWhile (sep : Char) (l : List Char) :
    jsSplitHead sep l = l.takeWhile (fun c => c ≠ sep) := by
  induction l with
  | nil => rfl
  | cons c cs ih =>
    by_cases h : c = sep <;> simp [jsSplitHead, List.takeWhile, h, ih]

/-- Hex encoding doubles the length. -/
lemma hexEncode_length (bs : List Nat) : (hexEncode bs).length = 2 * bs.length := by
  induction bs with
  | nil => rfl
  | cons b bs ih => simp [hexEncode, byteToHex, List.flatMap] at ih ⊢; omega

/-- A hex digit of a value below 16 lies in the lowercase hex alphabet. -/
lemma hexDigit_mem (n : Nat) (h : n < 16) :
    hexDigit n ∈ "0123456789abcdef".data := by
  have hfin : ∀ m : Fin 16, hexDigit m.val ∈ "0123456789abcdef".data := by decide
  exact hfin ⟨n, h⟩

/-- Both hex characters of a byte below 256 lie in the hex alphabet. -/
lemma byteToHex_mem (b : Nat) (hb : b < 256) :
    ∀ c ∈ byteToHex b, c ∈ "0123456789abcdef".data := by
  intro c hc
  simp only [byteToHex, List.mem_cons, List.not_mem_nil, or_false] at hc
  rcases hc with h | h
  · rw [h]; exact hexDigit_mem _ (by omega)
  · rw [h]; exact hexDigit_mem _ (Nat.mod_lt _ (by omega))

/-- Every character of the hex encoding of a byte list lies in the hex
alphabet. -/
lemma hexEncode_mem (bs : List Nat) (hb : ∀ b ∈ bs, b < 256) :
    ∀ c ∈ hexEncode bs, c ∈ "0123456789abcdef".data := by
  intro c hc
  rw [hexEncode, List.mem_flatMap] at hc
  obtain ⟨b, hbs, hcb⟩ := hc
  exact byteToHex_mem b (hb b hbs) c hcb

/-- A non-empty token string is not `isEmpty`. -/
lemma isEmpty_false_of_ne (t : String) (ht : t ≠ "") : t.isEmpty = false := by
  simp [String.isEmpty, String.endPos_eq_zero, ht]

/-- A store with exactly one holder of token `t`: `findFirst` returns it,
it really holds `t`, and every holder of `t` is that record. -/
lemma holders_unique (s : Store) (t : String) (h : countHolders s t = 1) :
    ∃ u, findByToken s t = some u ∧ u.verificationToken = some t ∧
      ∀ v ∈ s, v.verificationToken = some t → v = u := by
  have hw : ∃ w, s.filter (fun u => u.verificationToken == some t) = [w] :=
    List.length_eq_one.mp h
  obtain ⟨w, hw⟩ := hw
  have hwmem : w ∈ s ∧ (w.verificationToken == some t) = true := by
    have hmem : w ∈ s.filter (fun u => u.verificationToken == some t) := by
      rw [hw]; exact List.mem_singleton.mpr rfl
    have hp := List.of_mem_filter hmem
    exact ⟨List.mem_of_mem_filter hmem, hp⟩
  have hsome : (s.find? (fun u => u.verificationToken == some t)).isSome := by
    rw [List.find?_isSome]
    exact ⟨w, hwmem.1, hwmem.2⟩
  obtain ⟨u, hu⟩ := Option.isSome_iff_exists.mp hsome
  have hpu := List.find?_some hu
  refine ⟨u, hu, by simpa using hpu, ?_⟩
  intro v hv hvt
  have hvf : v ∈ s.filter (fun u => u.verificationToken == some t) :=
    List.mem_filter.mpr ⟨hv, by simp [hvt]⟩
  have huf : u ∈ s.filter (fun u => u.verificationToken == some t) :=
    List.mem_filter.mpr ⟨List.mem_of_find?_eq_some hu, hpu⟩
  rw [hw] at hvf huf
  rw [List.mem_singleton.mp hvf, List.mem_singleton.mp huf]

/-- After the consuming update, no record of the store holds the token
any more (provided every holder had the updated id). -/
lemma consumeUpdate_not_holder (now uid : Nat) (s : Store) (t : String)
    (h : ∀ v ∈ s, v.verificationToken = some t → v.id = uid) :
    ∀ v ∈ consumeUpdate now uid s, v.verificationToken ≠ some t := by
  intro v hv
  rw [consumeUpdate, List.mem_map] at hv
  obtain ⟨w, hw, hfw⟩ := hv
  by_cases hid : (w.id == uid) = true
  · rw [← hfw]; simp [hid]
  · rw [← hfw]; simp [hid]
    intro hwt
    exact hid (by simp [h w hw hwt])

/-- After the consuming update, `findFirst` by the same token misses. -/
lemma findByToken_consume (now : Nat) (s : Store) (t : String) (u : User)
    (_hu : u.verificationToken = some t)
    (huniq : ∀ v ∈ s, v.verificationToken = some t → v = u) :
    findByToken (consumeUpdate now u.id s) t = none := by
  rw [findByToken, List.find?_eq_none]
  intro v hv
  have := consumeUpdate_not_holder now u.id s t
    (fun w hw hwt => by rw [huniq w hw hwt]) v hv
  simpa using this

/-- A sample verified user with a stored password hash, used by concrete
counterexamples and witnesses. -/
def knownUser : User :=
  { id := 1, email := "known@x.com", password := some "bcrypt-hash-of-sekret",
    name := some "known", emailVerified := some 1700000000,
    verificationToken := none }

/-- A sample store holding only `knownUser`. -/
def exStore : Store := [knownUser]

/-- C1, counterexample: on the store holding one verified user with a
password hash, `login(unknownEmail, anyPassword)` and
`login(knownEmail, wrongPassword)` throw different error messages
("No user found with this email." vs "Incorrect password."), so the two
error payloads are not byte-identical and the runs are distinguishable. -/
theorem c1_enumeration_resistance_counterexample :
    authorize (fun p h => p == h) exStore (some "ghost@x.com") (some "sekret")
      = .err "No user found with this email."
    ∧ authorize (fun p h => p == h) exStore (some "known@x.com") (some "wrong")
      = .err "Incorrect password."
    ∧ authorize (fun p h => p == h) exStore (some "ghost@x.com") (some "sekret")
      ≠ authorize (fun p h => p == h) exStore (some "known@x.com") (some "wrong") := by
  decide

/-- C1, amended: the unknown-email run always throws
"No user found with this email." while the known-email wrong-password run
(on a verified account with a password hash) always throws
"Incorrect password.", so the two error payloads are distinct and the
caller can tell the runs apart. -/
theorem c1_login_error_payloads_distinct
    (compare : String → String → Bool) (s : Store)
    (e₁ e₂ p₁ p₂ : String) (u : User)
    (h₁ : findByEmail s e₁ = none)
    (h₂ : findByEmail s e₂ = some u)
    (h₃ : strFalsy u.password = false)
    (h₄ : u.emailVerified.isSome = true)
    (h₅ : compare p₂ (u.password.getD "") = false) :
    authorize compare s (some e₁) (some p₁) = .err "No user found with this email."
    ∧ authorize compare s (some e₂) (some p₂) = .err "Incorrect password."
    ∧ authorize compare s (some e₁) (some p₁) ≠ authorize compare s (some e₂) (some p₂) := by
  have hnone : u.emailVerified.isNone = false := by
    cases hv : u.emailVerified with
    | none => rw [hv] at h₄; simp at h₄
    | some ts => rfl
  refine ⟨?_, ?_, ?_⟩ <;>
    simp [authorize, h₁, h₂, h₃, hnone, h₅]

/-- C1 witness: the amended theorem applied to the concrete sample
store. -/
theorem c1_login_error_payloads_distinct_witness :
    authorize (fun p h => p == h) exStore (some "nobody@x.com") (some "whatever")
      = .err "No user found with this email."
    ∧ authorize (fun p h => p == h) exStore (some "known@x.com") (some "bad-guess")
      = .err "Incorrect password."
    ∧ authorize (fun p h => p == h) exStore (some "nobody@x.com") (some "whatever")
      ≠ authorize (fun p h => p == h) exStore (some "known@x.com") (some "bad-guess") :=
  c1_login_error_payloads_distinct (fun p h => p == h) exStore
    "nobody@x.com" "known@x.com" "whatever" "bad-guess" knownUser
    (by decide) (by decide) (by decide) (by decide) (by decide)

/-- C3: for a stored record with a password hash, the unverified record
makes `authorize` throw "Please verify your email before logging in."
for every submitted password (so the check runs before the hash
comparison and does not depend on it), while a verified record with a
matching password authenticates; and the unverified message differs from
every credential-failure message of `authorize`. -/
theorem c3_email_verification_gates_login
    (compare : String → String → Bool) (s : Store) (email : String) (u : User)
    (h₂ : findByEmail s email = some u)
    (h₃ : strFalsy u.password = false) :
    (u.emailVerified = none →
      ∀ p, authorize compare s (some email) (some p)
        = .err "Please verify your email before logging in.")
    ∧ (∀ ts p, u.emailVerified = some ts →
        compare p (u.password.getD "") = true →
        authorize compare s (some email) (some p) = .ok u)
    ∧ "Please verify your email before logging in." ≠ "No user found with this email."
    ∧ "Please verify your email before logging in." ≠ "Incorrect password."
    ∧ "Please verify your email before logging in." ≠ "Invalid credentials provided." := by
  refine ⟨?_, ?_, by decide, by decide, by decide⟩
  · intro hv p
    simp [authorize, h₂, h₃, hv]
  · intro ts p hv hc
    simp [authorize, h₂, h₃, hv, hc]

/-- C3 witness: an unverified and a verified copy of the sample user,
with the correct password. -/
theorem c3_email_verification_gates_login_witness :
    authorize (fun p h => h == "bcrypt-hash-of-sekret" && p == "sekret")
        [{ knownUser with emailVerified := none }] (some "known@x.com") (some "sekret")
      = .err "Please verify your email before logging in."
    ∧ authorize (fun p h => h == "bcrypt-hash-of-sekret" && p == "sekret")
        exStore (some "known@x.com") (some "sekret")
      = .ok knownUser :=
  ⟨(c3_email_verification_gates_login
      (fun p h => h == "bcrypt-hash-of-sekret" && p == "sekret")
      [{ knownUser with emailVerified := none }] "known@x.com"
      { knownUser with emailVerified := none }
      (by decide) (by decide)).1 rfl "sekret",
   (c3_email_verification_gates_login
      (fun p h => h == "bcrypt-hash-of-sekret" && p == "sekret")
      exStore "known@x.com" knownUser
      (by decide) (by decide)).2.1 1700000000 "sekret" rfl (by decide)⟩

/-- C4, counterexample: with a store whose only user registered a
password and is unverified, a federated (`"discord"`) sign-in for that
user is allowed (the gate returns `true`), not denied — the claimed
`EmailNotVerified` cross-check does not exist on the federated path. -/
theorem c4_federated_unverified_counterexample :
    signInGate
      [{ id := 1, email := "a@x.com", password := some "hash", name := some "a",
         emailVerified := none, verificationToken := some "tok" }]
      "discord" 1 = true := by
  decide

/-- C4, amended: the `signIn` gate authorizes every non-credentials
(federated) sign-in unconditionally, with no verification cross-check;
only a credentials sign-in is denied when the freshly looked-up record is
missing or unverified. -/
theorem c4_signin_gate_behaviour (s : Store) (provider : String) (uid : Nat) :
    (provider ≠ "credentials" → signInGate s provider uid = true)
    ∧ (findById s uid = none → signInGate s "credentials" uid = false)
    ∧ (∀ u, findById s uid = some u →
        signInGate s "credentials" uid = u.emailVerified.isSome) := by
  refine ⟨?_, ?_, ?_⟩
  · intro h
    simp [signInGate, h]
  · intro h
    simp [signInGate, h]
  · intro u h
    simp [signInGate, h]

/-- C2: on a store in which the token `t` has exactly one holder, the
verification page succeeds once; re-running the page with the same token
string on the resulting store yields `InvalidOrExpiredToken` and returns
the store unchanged, so no account is ever transitioned to verified by
the consumed token. -/
theorem c2_consumed_token_single_use (now now' : Nat) (s : Store) (t : String)
    (ht : t ≠ "") (h1 : countHolders s t = 1) :
    (verifyEmail now s t).1 = .success
    ∧ verifyEmail now' (verifyEmail now s t).2 t
        = (.invalidOrExpired, (verifyEmail now s t).2) := by
  have hemp : t.isEmpty = false := isEmpty_false_of_ne t ht
  obtain ⟨u, hf, hu, huniq⟩ := holders_unique s t h1
  have hs' : (verifyEmail now s t).2 = consumeUpdate now u.id s := by
    simp [verifyEmail, hemp, hf]
  constructor
  · simp [verifyEmail, hemp, hf]
  · rw [hs']
    have hn := findByToken_consume now s t u hu huniq
    simp [verifyEmail, hemp, hn]

/-- C2 witness: the theorem applied to a store holding one account with
an outstanding token. -/
theorem c2_consumed_token_single_use_witness :
    (verifyEmail 42
      [{ id := 3, email := "b@x.com", password := some "h", name := some "b",
         emailVerified := none, verificationToken := some "tok64" }] "tok64").1
      = .success
    ∧ verifyEmail 43
        (verifyEmail 42
          [{ id := 3, email := "b@x.com", password := some "h", name := some "b",
             emailVerified := none, verificationToken := some "tok64" }] "tok64").2 "tok64"
      = (.invalidOrExpired,
         (verifyEmail 42
           [{ id := 3, email := "b@x.com", password := some "h", name := some "b",
              emailVerified := none, verificationToken := some "tok64" }] "tok64").2) :=
  c2_consumed_token_single_use 42 43
    [{ id := 3, email := "b@x.com", password := some "h", name := some "b",
       emailVerified := none, verificationToken := some "tok64" }] "tok64"
    (by decide) (by decide)

/-- One register or verify step preserves the §3 token invariant. -/
lemma tokenInv_step (s : Store) (op : Op) (h : TokenInv s) :
    TokenInv (stepOp s op) := by
  cases op with
  | reg hash bytes freshId email password =>
    intro v hv hvt
    cases hfind : findByEmail s email with
    | some u =>
      simp [stepOp, registerResolver, hfind] at hv
      exact h v hv hvt
    | none =>
      simp [stepOp, registerResolver, hfind] at hv
      rcases hv with hvs | hvnew
      · exact h v hvs hvt
      · rw [hvnew]
  | ver now t =>
    intro v hv hvt
    by_cases hemp : t.isEmpty
    · simp [stepOp, verifyEmail, hemp] at hv
      exact h v hv hvt
    · cases hft : findByToken s t with
      | none =>
        simp [stepOp, verifyEmail, hemp, hft] at hv
        exact h v hv hvt
      | some u =>
        simp only [stepOp, verifyEmail, hemp, hft, Bool.false_eq_true,
          if_false, consumeUpdate] at hv
        rw [List.mem_map] at hv
        obtain ⟨w, hw, hwv⟩ := hv
        by_cases hid : (w.id == u.id) = true
        · rw [← hwv] at hvt ⊢
          simp [hid] at hvt
        · rw [← hwv] at hvt ⊢
          simp only [hid, Bool.false_eq_true, if_false] at hvt ⊢
          exact h w hw hvt

/-- The token invariant holds along any foldl of steps from an invariant
store. -/
lemma tokenInv_foldl (ops : List Op) :
    ∀ s : Store, TokenInv s → TokenInv (ops.foldl stepOp s) := by
  induction ops with
  | nil => intro s h; exact h
  | cons op rest ih =>
    intro s h
    exact ih (stepOp s op) (tokenInv_step s op h)

/-- C5: in every store reachable from empty by register and verify
operations, a non-null `verificationToken` entails `emailVerified = null`;
and the consuming transition touches records only by simultaneously
setting `emailVerified` and nulling the token in the single update
(every record of the output store is either unchanged or has both fields
set together — never one without the other). -/
theorem c5_token_invariant_and_atomic_consume :
    (∀ ops : List Op, TokenInv (reachable ops))
    ∧ (∀ (now : Nat) (s : Store) (t : String), ∀ v ∈ (verifyEmail now s t).2,
        v ∈ s ∨ (v.emailVerified = some now ∧ v.verificationToken = none)) := by
  constructor
  · intro ops
    exact tokenInv_foldl ops [] (by intro v hv; simp at hv)
  · intro now s t v hv
    by_cases hemp : t.isEmpty
    · simp [verifyEmail, hemp] at hv
      exact Or.inl hv
    · cases hft : findByToken s t with
      | none =>
        simp [verifyEmail, hemp, hft] at hv
        exact Or.inl hv
      | some u =>
        simp only [verifyEmail, hemp, hft, Bool.false_eq_true, if_false,
          consumeUpdate] at hv
        rw [List.mem_map] at hv
        obtain ⟨w, hw, hwv⟩ := hv
        by_cases hid : (w.id == u.id) = true
        · right
          rw [← hwv]
          simp [hid]
        · left
          rw [← hwv]
          simp only [hid, Bool.false_eq_true, if_false]
          exact hw

/-- C5 witness: the invariant evaluated on a concrete reachable store,
and the frame/atomicity disjunction at a concrete record of a concrete
verify run. -/
theorem c5_token_invariant_and_atomic_consume_witness :
    TokenInv (reachable
      [.reg (fun p => p) (List.replicate 32 0) 1 "a@x.com" "Passw0rd!",
       .ver 9 (String.mk (hexEncode (List.replicate 32 0)))])
    ∧ (({ id := 3, email := "b@x.com", password := some "h", name := some "b",
          emailVerified := some 42, verificationToken := none } : User) ∈
          ([{ id := 3, email := "b@x.com", password := some "h", name := some "b",
              emailVerified := none, verificationToken := some "tok64" }] : Store)
        ∨ (({ id := 3, email := "b@x.com", password := some "h", name := some "b",
              emailVerified := some 42, verificationToken := none } : User).emailVerified
              = some 42
           ∧ ({ id := 3, email := "b@x.com", password := some "h", name := some "b",
                emailVerified := some 42, verificationToken := none } : User).verificationToken
              = none)) :=
  ⟨c5_token_invariant_and_atomic_consume.1
     [.reg (fun p => p) (List.replicate 32 0) 1 "a@x.com" "Passw0rd!",
      .ver 9 (String.mk (hexEncode (List.replicate 32 0)))],
   c5_token_invariant_and_atomic_consume.2 42
     [{ id := 3, email := "b@x.com", password := some "h", name := some "b",
        emailVerified := none, verificationToken := some "tok64" }] "tok64"
     { id := 3, email := "b@x.com", password := some "h", name := some "b",
       emailVerified := some 42, verificationToken := none }
     (by decide)⟩

/-- C6: a registration whose e-mail already has a record fails with
"Email already in use" and performs no write: the store and the list of
dispatched verification e-mails are exactly as before the call. -/
theorem c6_duplicate_registration_conflict_no_write
    (emailOk : String → Bool) (hash : String → String) (bytes : List Nat)
    (freshId : Nat) (s : Store) (sent : List (String × String))
    (email password : String) (u : User)
    (hv : emailOk email = true) (hp : passwordPolicy password = true)
    (hdup : findByEmail s email = some u) :
    registerProc emailOk hash bytes freshId s sent email password
      = { result := .error "Email already in use", store := s, sent := sent } := by
  simp [registerProc, hv, hp, registerResolver, hdup]

/-- C6 witness: registering the sample user's e-mail a second time. -/
theorem c6_duplicate_registration_conflict_no_write_witness :
    registerProc (fun _ => true) (fun p => p) (List.replicate 32 0) 9
      exStore [] "known@x.com" "Passw0rd!"
      = { result := .error "Email already in use", store := exStore, sent := [] } :=
  c6_duplicate_registration_conflict_no_write (fun _ => true) (fun p => p)
    (List.replicate 32 0) 9 exStore [] "known@x.com" "Passw0rd!" knownUser
    rfl (by decide) (by decide)

/-- C7: a successful registration (validation passed, e-mail not yet in
the store, 32 random bytes) appends exactly one record whose
`emailVerified` is null, whose `verificationToken` is a 64-character
string over the lowercase hexadecimal alphabet, and whose `name` is the
text of the e-mail before the first `@`. -/
theorem c7_created_record_shape
    (emailOk : String → Bool) (hash : String → String) (bytes : List Nat)
    (freshId : Nat) (s : Store) (sent : List (String × String))
    (email password : String)
    (hv : emailOk email = true) (hp : passwordPolicy password = true)
    (hn : findByEmail s email = none) (hlen : bytes.length = 32)
    (hb : ∀ b ∈ bytes, b < 256) :
    ∃ newUser : User,
      (registerProc emailOk hash bytes freshId s sent email password).store
        = s ++ [newUser]
      ∧ newUser.emailVerified = none
      ∧ (∃ tok : String, newUser.verificationToken = some tok
          ∧ tok.length = 64
          ∧ ∀ c ∈ tok.data, c ∈ "0123456789abcdef".data)
      ∧ newUser.name = some (String.mk (email.data.takeWhile (fun c => c ≠ '@'))) := by
  refine ⟨{ id := freshId, email := email, password := some (hash password),
            name := some (String.mk (jsSplitHead '@' email.data)),
            emailVerified := none,
            verificationToken := some (String.mk (hexEncode bytes)) },
          ?_, rfl, ⟨String.mk (hexEncode bytes), rfl, ?_, ?_⟩, ?_⟩
  · simp [registerProc, hv, hp, registerResolver, hn]
  · show (hexEncode bytes).length = 64
    rw [hexEncode_length, hlen]
  · intro c hc
    exact hexEncode_mem bytes hb c hc
  · rw [jsSplitHead_eq_takeWhile]

/-- C7 witness: the theorem applied to a concrete registration into the
empty store. -/
theorem c7_created_record_shape_witness :
    ∃ newUser : User,
      (registerProc (fun _ => true) (fun p => p) (List.replicate 32 171) 1
          [] [] "a@x.com" "Passw0rd!").store = [] ++ [newUser]
      ∧ newUser.emailVerified = none
      ∧ (∃ tok : String, newUser.verificationToken = some tok
          ∧ tok.length = 64
          ∧ ∀ c ∈ tok.data, c ∈ "0123456789abcdef".data)
      ∧ newUser.name
          = some (String.mk ("a@x.com".data.takeWhile (fun c => c ≠ '@'))) :=
  c7_created_record_shape (fun _ => true) (fun p => p) (List.replicate 32 171)
    1 [] [] "a@x.com" "Passw0rd!" rfl (by decide) rfl (by decide) (by decide)

/-- C4 witness: the amended theorem applied to a concrete unverified
password-holding user and a federated provider. -/
theorem c4_signin_gate_behaviour_witness :
    signInGate
      [{ id := 1, email := "a@x.com", password := some "hash", name := some "a",
         emailVerified := none, verificationToken := some "tok" }]
      "discord" 1 = true :=
  (c4_signin_gate_behaviour
    [{ id := 1, email := "a@x.com", password := some "hash", name := some "a",
       emailVerified := none, verificationToken := some "tok" }]
    "discord" 1).1 (by decide)

/-- C8, counterexample: one account holding the still-valid token "tok";
in the interleaving read₁, read₂, write₁, write₂ both racing requests
report success, so it is not the case that exactly one succeeds while the
other observes `InvalidOrExpiredToken`. -/
theorem c8_race_both_succeed_counterexample :
    (runSched 10 20 "tok" [true, false, true, false]
      [{ id := 1, email := "a@x.com", password := some "h", name := some "a",
         emailVerified := none, verificationToken := some "tok" }]
      .fresh .fresh).2.1.result = some .success
    ∧ (runSched 10 20 "tok" [true, false, true, false]
        [{ id := 1, email := "a@x.com", password := some "h", name := some "a",
           emailVerified := none, verificationToken := some "tok" }]
        .fresh .fresh).2.2.result = some .success := by
  decide

/-- C8, amended: when one request completes before the other begins,
exactly one succeeds and the other observes `InvalidOrExpiredToken`; but
in the interleaving where both `findFirst` reads precede both updates,
both requests report success (the token still ends cleared from every
record, so the store is never left with the token outstanding). -/
theorem c8_race_outcomes (now₁ now₂ : Nat) (s : Store) (t : String)
    (ht : t ≠ "") (hc : countHolders s t = 1) :
    ((runSched now₁ now₂ t [true, true, false, false] s .fresh .fresh).2.1.result
        = some .success
      ∧ (runSched now₁ now₂ t [true, true, false, false] s .fresh .fresh).2.2.result
        = some .invalidOrExpired)
    ∧ ((runSched now₁ now₂ t [true, false, true, false] s .fresh .fresh).2.1.result
        = some .success
      ∧ (runSched now₁ now₂ t [true, false, true, false] s .fresh .fresh).2.2.result
        = some .success
      ∧ ∀ v ∈ (runSched now₁ now₂ t [true, false, true, false] s .fresh .fresh).1,
          v.verificationToken ≠ some t) := by
  have hemp : t.isEmpty = false := isEmpty_false_of_ne t ht
  obtain ⟨u, hf, hu, huniq⟩ := holders_unique s t hc
  have hn : findByToken (consumeUpdate now₁ u.id s) t = none :=
    findByToken_consume now₁ s t u hu huniq
  have h1' : ∀ v ∈ consumeUpdate now₁ u.id s, v.verificationToken ≠ some t :=
    consumeUpdate_not_holder now₁ u.id s t
      (fun w hw hwt => by rw [huniq w hw hwt])
  have h2' : ∀ v ∈ consumeUpdate now₂ u.id (consumeUpdate now₁ u.id s),
      v.verificationToken ≠ some t :=
    consumeUpdate_not_holder now₂ u.id (consumeUpdate now₁ u.id s) t
      (fun w hw hwt => absurd hwt (h1' w hw))
  refine ⟨⟨?_, ?_⟩, ?_, ?_, ?_⟩ <;>
    simp [runSched, verifyStep, VerifyReq.fresh, hemp, hf, hn]
  exact h2'

/-- C8 witness: the amended theorem applied to the one-account store
holding token "tok". -/
theorem c8_race_outcomes_witness :
    ((runSched 10 20 "tok" [true, true, false, false]
        [{ id := 1, email := "a@x.com", password := some "h", name := some "a",
           emailVerified := none, verificationToken := some "tok" }]
        .fresh .fresh).2.1.result = some .success
      ∧ (runSched 10 20 "tok" [true, true, false, false]
          [{ id := 1, email := "a@x.com", password := some "h", name := some "a",
             emailVerified := none, verificationToken := some "tok" }]
          .fresh .fresh).2.2.result = some .invalidOrExpired)
    ∧ ((runSched 10 20 "tok" [true, false, true, false]
          [{ id := 1, email := "a@x.com", password := some "h", name := some "a",
             emailVerified := none, verificationToken := some "tok" }]
          .fresh .fresh).2.1.result = some .success
      ∧ (runSched 10 20 "tok" [true, false, true, false]
          [{ id := 1, email := "a@x.com", password := some "h", name := some "a",
             emailVerified := none, verificationToken := some "tok" }]
          .fresh .fresh).2.2.result = some .success
      ∧ ∀ v ∈ (runSched 10 20 "tok" [true, false, true, false]
            [{ id := 1, email := "a@x.com", password := some "h", name := some "a",
               emailVerified := none, verificationToken := some "tok" }]
            .fresh .fresh).1,
          v.verificationToken ≠ some "tok") :=
  c8_race_outcomes 10 20
    [{ id := 1, email := "a@x.com", password := some "h", name := some "a",
       emailVerified := none, verificationToken := some "tok" }]
    "tok" (by decide) (by decide)

/-- In a store with pairwise-distinct e-mails, any member with e-mail `e`
is what `findUnique` by `e` returns. -/
lemma findByEmail_unique (s : Store) (e : String) (u : User)
    (hu : s.Pairwise (fun a b => a.email ≠ b.email))
    (hm : u ∈ s) (he : u.email = e) : findByEmail s e = some u := by
  induction s with
  | nil => cases hm
  | cons v tl ih =>
    rw [List.pairwise_cons] at hu
    rcases List.mem_cons.mp hm with h | hmt
    · subst h
      simp [findByEmail, List.find?_cons, he]
    · have hne : v.email ≠ e := by
        intro hv
        exact (hu.1 u hmt) (hv.trans he.symm)
      have htl := ih hu.2 hmt
      rw [findByEmail] at htl ⊢
      simp [List.find?_cons, hne, htl]

/-- C9: for a schema-valid e-mail posted by anyone, the check-email
endpoint answers 200 with `exists` true exactly when a record with that
e-mail is stored and `emailVerified` true exactly when that record's
timestamp is non-null — disclosing both outside the registration flow —
while a schema-invalid body is answered 200 with both flags false. -/
theorem c9_check_email_discloses_status (s : Store) (e : String)
    (hu : s.Pairwise (fun a b => a.email ≠ b.email)) :
    (checkEmailPOST s (.withEmail e)).status = 200
    ∧ ((checkEmailPOST s (.withEmail e)).exists_ = true ↔ ∃ u ∈ s, u.email = e)
    ∧ ((checkEmailPOST s (.withEmail e)).emailVerified = true ↔
        ∃ u ∈ s, u.email = e ∧ u.emailVerified ≠ none)
    ∧ checkEmailPOST s .badSchema
        = { status := 200, exists_ := false, emailVerified := false } := by
  refine ⟨?_, ?_, ?_, rfl⟩
  · cases hf : findByEmail s e <;> simp [checkEmailPOST, hf]
  · cases hf : findByEmail s e with
    | none =>
      simp only [checkEmailPOST, hf, Bool.false_eq_true, false_iff]
      rintro ⟨w, hw, hwe⟩
      have hcontra := findByEmail_unique s e w hu hw hwe
      rw [hf] at hcontra
      cases hcontra
    | some w =>
      have hwe : w.email = e := by
        have hp := List.find?_some hf
        simpa using hp
      have hwm : w ∈ s := List.mem_of_find?_eq_some hf
      simp only [checkEmailPOST, hf, true_iff]
      exact ⟨w, hwm, hwe⟩
  · cases hf : findByEmail s e with
    | none =>
      simp only [checkEmailPOST, hf, Bool.false_eq_true, false_iff]
      rintro ⟨w, hw, hwe, _⟩
      have hcontra := findByEmail_unique s e w hu hw hwe
      rw [hf] at hcontra
      cases hcontra
    | some w =>
      have hwe : w.email = e := by
        have hp := List.find?_some hf
        simpa using hp
      have hwm : w ∈ s := List.mem_of_find?_eq_some hf
      simp only [checkEmailPOST, hf]
      constructor
      · intro hv
        refine ⟨w, hwm, hwe, ?_⟩
        cases hwv : w.emailVerified with
        | none => rw [hwv] at hv; simp at hv
        | some ts => simp
      · rintro ⟨x, hx, hxe, hxv⟩
        have hxu := findByEmail_unique s e x hu hx hxe
        rw [hf] at hxu
        have hxw : w = x := by injection hxu
        rw [← hxw] at hxv
        cases hwv : w.emailVerified with
        | none => exact absurd hwv hxv
        | some ts => simp [hwv]

/-- C9 witness: the theorem applied to the sample store and the sample
user's e-mail. -/
theorem c9_check_email_discloses_status_witness :
    (checkEmailPOST exStore (.withEmail "known@x.com")).status = 200
    ∧ ((checkEmailPOST exStore (.withEmail "known@x.com")).exists_ = true ↔
        ∃ u ∈ exStore, u.email = "known@x.com")
    ∧ ((checkEmailPOST exStore (.withEmail "known@x.com")).emailVerified = true ↔
        ∃ u ∈ exStore, u.email = "known@x.com" ∧ u.emailVerified ≠ none)
    ∧ checkEmailPOST exStore .badSchema
        = { status := 200, exists_ := false, emailVerified := false } :=
  c9_check_email_discloses_status exStore "known@x.com" (by simp [exStore])

/-- C10: the timing middleware hands back exactly what the downstream
stage produced (values and errors are propagated unchanged), injects no
delay outside development, and any delay it does inject lies between 100
and 499 milliseconds inclusive. -/
theorem c10_timing_middleware_passthrough_and_bounds
    {E A : Type} (isDev : Bool) (rand : Nat) (next : Except E A) :
    (timingMiddleware isDev rand next).result = next
    ∧ (isDev = false → (timingMiddleware isDev rand next).delayed = none)
    ∧ ∀ d, (timingMiddleware isDev rand next).delayed = some d →
        100 ≤ d ∧ d ≤ 499 := by
  refine ⟨rfl, ?_, ?_⟩
  · intro h
    simp [timingMiddleware, h]
  · intro d hd
    cases isDev with
    | false => simp [timingMiddleware] at hd
    | true =>
      simp [timingMiddleware] at hd
      have hlt : rand % 400 < 400 := Nat.mod_lt _ (by omega)
      omega

/-- C10 witness: the theorem applied in development mode with a concrete
random draw and a concrete downstream success. -/
theorem c10_timing_middleware_passthrough_and_bounds_witness :
    (@timingMiddleware String Nat true 77 (Except.ok 5)).result = Except.ok 5
    ∧ 100 ≤ 177 ∧ 177 ≤ 499 :=
  ⟨(@c10_timing_middleware_passthrough_and_bounds String Nat true 77
      (Except.ok 5)).1,
   (@c10_timing_middleware_passthrough_and_bounds String Nat true 77
      (Except.ok 5)).2.2 177 rfl⟩

end TodoAuth
